import Mathlib

/-!
Shallow embedding of the reddit saved-posts media downloader
(`reddit_downloader.py`): the RedGifs client with its lazy token cache,
the file fetcher `download_file` with its existence/size skip logic, and
the session loop of `main` with its counters and consecutive-skip circuit
breaker.  Network responses and filesystem contents are supplied as
explicit oracles (lists consumed in call order, and a map from filename
to byte size), so every definition is executable.
-/

namespace RedditDownloader

/-! ## String utilities -/

/-- Substring containment over char lists: Python's `needle in hay`. -/
def listContains (needle : List Char) : List Char → Bool
  | [] => needle.isPrefixOf []
  | c :: t => needle.isPrefixOf (c :: t) || listContains needle t

/-- Python `needle in hay` on strings. -/
def strContains (hay needle : String) : Bool :=
  listContains needle.data hay.data

/-- Characters stripped from titles: `re.sub(r'[\\/*?:"<>|]', "", title)`. -/
def badChars : List Char := ['\\', '/', '*', '?', ':', '"', '<', '>', '|']

/-- `sanitized_title = re.sub(r'[\\/*?:"<>|]', "", title)`. -/
def sanitizeTitle (t : String) : String :=
  String.mk (t.data.filter (fun c => !(badChars.contains c)))

/-- Python `str.split(c)` for a one-character separator. -/
def splitOnChar (c : Char) : List Char → List (List Char)
  | [] => [[]]
  | x :: xs =>
    if x = c then [] :: splitOnChar c xs
    else match splitOnChar c xs with
      | [] => [[x]]
      | y :: ys => (x :: y) :: ys

/-- Python `s.split(c)[-1]`. -/
def splitLast (c : Char) (s : String) : String :=
  String.mk ((splitOnChar c s.data).getLastD [])

/-- `[a-zA-Z0-9]` character class. -/
def isAlnum (c : Char) : Bool :=
  decide ((97 ≤ c.toNat ∧ c.toNat ≤ 122) ∨ (65 ≤ c.toNat ∧ c.toNat ≤ 90) ∨
    (48 ≤ c.toNat ∧ c.toNat ≤ 57))

/-- Greedy `[a-zA-Z0-9]+`: the maximal nonempty alphanumeric prefix. -/
def alnumPlus (cs : List Char) : Option String :=
  match cs.takeWhile isAlnum with
  | [] => none
  | r => some (String.mk r)

/-- One anchored attempt of the pattern
`redgifs\.com/(?:watch/|ifr/)?([a-zA-Z0-9]+)`, with the regex engine's
backtracking through the optional alternation. -/
def rgMatchAt (cs : List Char) : Option String :=
  if ("redgifs.com/".data).isPrefixOf cs then
    let rest := cs.drop 12
    match (if ("watch/".data).isPrefixOf rest then alnumPlus (rest.drop 6) else none) with
    | some s => some s
    | none =>
      match (if ("ifr/".data).isPrefixOf rest then alnumPlus (rest.drop 4) else none) with
      | some s => some s
      | none => alnumPlus rest
  else none

/-- `re.search(r'redgifs\.com/(?:watch/|ifr/)?([a-zA-Z0-9]+)', url)`:
leftmost match wins; returns the captured group. -/
def rgSearch : List Char → Option String
  | [] => none
  | c :: rest =>
    match rgMatchAt (c :: rest) with
    | some s => some s
    | none => rgSearch rest

/-! ## RedGifs client (`RedGifsClient`) -/

/-- Abstraction of one response to `GET /v2/gifs/{id}`.  `body` abstracts
`response.json()`: `none` is a falsy JSON value, `some hd` a truthy body
whose `gif.urls.hd` field is `hd` (possibly absent). -/
structure MetaResp where
  status : Nat
  body : Option (Option String)
deriving DecidableEq, Repr

/-- Outcome of `get_media_info`: the JSON body on success, `None`
(transient error) otherwise, or the re-raised 410 `HTTPError`. -/
inductive GMIResult where
  | info (j : Option (Option String))
  | noInfo
  | raise410
deriving DecidableEq, Repr

/-- Python truthiness of `self.token` (an `Option String`). -/
def tokTruthy : Option String → Bool
  | none => false
  | some s => !(s.data.isEmpty)

/-- Instrumentation of one `get_media_info` call: how many times
`_authenticate` ran and which bearer tokens the metadata requests used. -/
structure RGTrace where
  authCalls : Nat
  metaTokens : List String
deriving DecidableEq, Repr

/-- `_authenticate`: consumes the next auth-endpoint outcome and stores it
as the token (`none` models both a request failure and a missing field). -/
def authenticate (auths : List (Option String)) :
    Option String × List (Option String) :=
  match auths with
  | [] => (none, [])
  | a :: rest => (a, rest)

/-- Consume the next metadata response from the oracle. -/
def takeMeta (metas : List MetaResp) : MetaResp × List MetaResp :=
  match metas with
  | [] => (⟨0, none⟩, [])
  | m :: rest => (m, rest)

/-- `response.raise_for_status()` followed by the exception handlers of
`get_media_info`: 4xx/5xx raise; the handler re-raises a 410 and maps every
other `HTTPError` to `None`; a non-error status returns `response.json()`. -/
def raiseForStatus (r : MetaResp) : GMIResult :=
  if 400 ≤ r.status ∧ r.status < 600 then
    (if r.status = 410 then .raise410 else .noInfo)
  else .info r.body

/-- Result of `get_media_info` together with the client/oracle state. -/
structure RGOut where
  result : GMIResult
  token : Option String
  auths : List (Option String)
  metas : List MetaResp
  trace : RGTrace

/-- Body of `get_media_info` once a truthy token `tok` is in hand: first
metadata request; on 401 re-authenticate and, if a truthy token came back,
retry exactly once; then `raise_for_status`.  `ac` counts `_authenticate`
calls already made. -/
def getMediaInfoAuthed (tok : String) (auths : List (Option String))
    (metas : List MetaResp) (ac : Nat) : RGOut :=
  let r1 := (takeMeta metas).1
  let metas1 := (takeMeta metas).2
  if r1.status = 401 then
    let t2 := (authenticate auths).1
    let auths2 := (authenticate auths).2
    if tokTruthy t2 then
      let r2 := (takeMeta metas1).1
      ⟨raiseForStatus r2, t2, auths2, (takeMeta metas1).2,
        ⟨ac + 1, [tok, t2.getD ""]⟩⟩
    else
      ⟨raiseForStatus r1, t2, auths2, metas1, ⟨ac + 1, [tok]⟩⟩
  else
    ⟨raiseForStatus r1, some tok, auths, metas1, ⟨ac, [tok]⟩⟩

/-- `RedGifsClient.get_media_info`: authenticate first if the cached token
is falsy (returning `None` if that fails), then run the authed body. -/
def getMediaInfo (token0 : Option String) (auths : List (Option String))
    (metas : List MetaResp) : RGOut :=
  if tokTruthy token0 then getMediaInfoAuthed (token0.getD "") auths metas 0
  else
    let t1 := (authenticate auths).1
    let auths1 := (authenticate auths).2
    if tokTruthy t1 then getMediaInfoAuthed (t1.getD "") auths1 metas 1
    else ⟨.noInfo, t1, auths1, metas, ⟨1, []⟩⟩

/-! ## File fetcher (`download_file`) -/

/-- The filesystem: filename to byte size of the file, if present. -/
def FS := String → Option Nat

/-- Writing `size` bytes to `fn` (open `'wb'` then stream). -/
def FS.write (fs : FS) (fn : String) (size : Nat) : FS :=
  fun p => if p = fn then some size else fs p

/-- Outcome of the `HEAD` size probe: a readable `content-length` header
value (`none` when the header is absent, giving the `0` default), or an
exception (request failure / non-numeric header). -/
inductive HeadOutcome where
  | ok (contentLength : Option Nat)
  | err
deriving DecidableEq, Repr

/-- Outcome of the streaming `GET`: a 2xx with the full body of `size`
bytes; a non-2xx status (`raise_for_status` fires before any write); a
connection failure before the response; a 2xx whose stream dies after
`written` bytes (a `RequestException`, caught); or an `OSError` from the
local write after `written` bytes (not caught by `download_file`). -/
inductive GetOutcome where
  | ok (size : Nat)
  | httpError
  | connError
  | streamFail (written : Nat)
  | ioError (written : Nat)
deriving DecidableEq, Repr

/-- Network oracle for one `download_file` call. -/
structure DLEnv where
  head : HeadOutcome
  get : GetOutcome
deriving DecidableEq, Repr

/-- Does this `GET` outcome raise past `download_file`? -/
def GetOutcome.raises : GetOutcome → Bool
  | .ioError _ => true
  | _ => false

/-- The download path of `download_file` (the final `try` block):
`.error ()` models the uncaught `OSError`. -/
def doDownloadStep (fs : FS) (fn : String) (g : GetOutcome) :
    Except Unit Bool × FS :=
  match g with
  | .ok size => (.ok false, FS.write fs fn size)
  | .httpError => (.ok false, fs)
  | .connError => (.ok false, fs)
  | .streamFail w => (.ok false, FS.write fs fn w)
  | .ioError w => (.error (), FS.write fs fn w)

/-- Result of `download_file`: the returned bool (`True` = skipped) or a
propagated exception, the filesystem afterwards, and how many `HEAD` and
`GET` requests were issued. -/
structure DLOut where
  result : Except Unit Bool
  fs : FS
  headCalls : Nat
  getCalls : Nat

/-- `download_file(url, filename, session, check_size)`.  If the file
exists and `check_size` is false, return `True` with no network call.
If it exists and `check_size` is true, probe with `HEAD`: a positive
remote size equal to the local size returns `True`; a probe exception
returns `False`; otherwise fall through to the download.  The download
streams to disk and returns `False` on every path (success included). -/
def download_file (fs : FS) (fn : String) (check_size : Bool)
    (env : DLEnv) : DLOut :=
  match fs fn with
  | some localSize =>
    if check_size = false then ⟨.ok true, fs, 0, 0⟩
    else
      match env.head with
      | .err => ⟨.ok false, fs, 1, 0⟩
      | .ok cl =>
        if 0 < cl.getD 0 ∧ cl.getD 0 = localSize then ⟨.ok true, fs, 1, 0⟩
        else ⟨(doDownloadStep fs fn env.get).1, (doDownloadStep fs fn env.get).2, 1, 1⟩
  | none => ⟨(doDownloadStep fs fn env.get).1, (doDownloadStep fs fn env.get).2, 0, 1⟩

/-! ## Session loop (`main`) -/

/-- One gallery item: `item['media_id']` and
`post.media_metadata[media_id]['m']` (a mime type such as `image/png`). -/
structure GalleryItem where
  media_id : String
  mime : String
deriving DecidableEq, Repr

/-- A saved post as consumed by `main`. -/
structure SavedPost where
  title : String
  url : String
  is_gallery : Bool
  items : List GalleryItem
deriving DecidableEq, Repr

/-- State threaded through one run of `main`: filesystem, the three
counters, the RedGifs client token, the response oracles, and a log of
every `download_file` call as `(url, filename)`. -/
structure LoopSt where
  fs : FS
  skipped : Nat
  consecutive : Nat
  deleted : Nat
  token : Option String
  auths : List (Option String)
  metas : List MetaResp
  dls : List DLEnv
  fetchLog : List (String × String)

/-- Consume the next `download_file` oracle entry (a run that outlives its
oracle sees an inert connection-failure response). -/
def takeDL (l : List DLEnv) : DLEnv × List DLEnv :=
  match l with
  | [] => (⟨.err, .connError⟩, [])
  | e :: rest => (e, rest)

/-- How a unit of work ends: fall through to the next unit, the
circuit-breaker `return`, or an exception leaving the loop. -/
inductive StepRes where
  | next
  | stopRun
  | exn
deriving DecidableEq, Repr

/-- The counter updates and circuit-breaker check that follow every
`download_file` call in `main`: on `True` increment both skip counters, on
`False` reset the consecutive counter; then
`if CONSECUTIVE_SKIP_LIMIT > 0 and consecutive >= CONSECUTIVE_SKIP_LIMIT:
return`.  An exception skips all of it. -/
def applyResult (limit : Nat) (st2 : LoopSt) (r : Except Unit Bool) :
    StepRes × LoopSt :=
  match r with
  | .error _ => (.exn, st2)
  | .ok true =>
    let st3 := { st2 with skipped := st2.skipped + 1,
                          consecutive := st2.consecutive + 1 }
    if 0 < limit ∧ limit ≤ st3.consecutive then (.stopRun, st3) else (.next, st3)
  | .ok false =>
    let st3 := { st2 with consecutive := 0 }
    if 0 < limit ∧ limit ≤ st3.consecutive then (.stopRun, st3) else (.next, st3)

/-- One `download_file` call from `main` plus its counter/breaker suffix. -/
def handleDownload (limit : Nat) (st : LoopSt) (url fn : String)
    (check_size : Bool) : StepRes × LoopSt :=
  let env := (takeDL st.dls).1
  let d := download_file st.fs fn check_size env
  applyResult limit
    { st with fs := d.fs, dls := (takeDL st.dls).2,
              fetchLog := st.fetchLog ++ [(url, fn)] } d.result

/-- `image_url = f"https://i.redd.it/{media_id}.{media_type}"` where
`media_type = post.media_metadata[media_id]['m'].split('/')[-1]`. -/
def galleryUrl (it : GalleryItem) : String :=
  "https://i.redd.it/" ++ it.media_id ++ "." ++ splitLast '/' it.mime

/-- `filename = f"{sanitized_title}_{i+1}.{media_type}"`. -/
def galleryName (s : String) (i : Nat) (it : GalleryItem) : String :=
  s ++ "_" ++ Nat.repr (i + 1) ++ "." ++ splitLast '/' it.mime

/-- The gallery branch: `for i, item in enumerate(gallery_items)`, one
download per item with url `https://i.redd.it/{media_id}.{media_type}` and
filename `{sanitized_title}_{i+1}.{media_type}`, breaker check after each. -/
def processGallery (limit : Nat) (s : String) (i : Nat)
    (items : List GalleryItem) (st : LoopSt) : StepRes × LoopSt :=
  match items with
  | [] => (.next, st)
  | item :: rest =>
    let r := handleDownload limit st (galleryUrl item) (galleryName s i item) false
    match r.1 with
    | .next => processGallery limit s (i + 1) rest r.2
    | _ => r

/-- The allow-list of the direct-image branch. -/
def imageExts : List String := ["jpg", "jpeg", "png", "gif"]

/-- The `i.redd.it` / `i.imgur.com` branch: extension from
`post.url.split('.')[-1]`, downloaded without size check only when it is
on the allow-list. -/
def processDirect (limit : Nat) (s url : String) (st : LoopSt) :
    StepRes × LoopSt :=
  let ext := splitLast '.' url
  if imageExts.contains ext then
    handleDownload limit st url (s ++ "." ++ ext) false
  else (.next, st)

/-- The RedGifs branch after `get_media_info` returned `r`: a re-raised
410 is caught by the `except HTTPError` handler and bumps the deleted
counter; falsy metadata and a missing HD url just continue; otherwise the
HD file is fetched with `check_size=True`, and an exception from that
download is caught by `except Exception` and the loop continues. -/
def processRedgifsWith (limit : Nat) (s : String) (st2 : LoopSt)
    (r : GMIResult) : StepRes × LoopSt :=
  match r with
  | .raise410 => (.next, { st2 with deleted := st2.deleted + 1 })
  | .noInfo => (.next, st2)
  | .info none => (.next, st2)
  | .info (some hd) =>
    match hd with
    | none => (.next, st2)
    | some u =>
      let r2 := handleDownload limit st2 u (s ++ ".mp4") true
      match r2.1 with
      | .exn => (.next, r2.2)
      | _ => r2

/-- The RedGifs branch: parse the id out of the url (an unparseable url is
logged and skipped), call `get_media_info`, then handle its outcome. -/
def processRedgifs (limit : Nat) (s url : String) (st : LoopSt) :
    StepRes × LoopSt :=
  match rgSearch url.data with
  | none => (.next, st)
  | some _ =>
    let out := getMediaInfo st.token st.auths st.metas
    processRedgifsWith limit s
      { st with token := out.token, auths := out.auths, metas := out.metas }
      out.result

/-- Which branch of `main`'s per-post dispatch a post falls into,
in the source's order: gallery flag, then the `i.redd.it`/`i.imgur.com`
substring test, then the `redgifs.com` substring test. -/
inductive Branch where
  | gallery
  | directImage
  | externalVideo
  | ignored
deriving DecidableEq, Repr

/-- The classification conditions of `main`, verbatim. -/
def classify (post : SavedPost) : Branch :=
  if post.is_gallery then .gallery
  else if strContains post.url "i.redd.it" || strContains post.url "i.imgur.com" then
    .directImage
  else if strContains post.url "redgifs.com" then .externalVideo
  else .ignored

/-- One iteration of `for post in saved_posts`. -/
def processPost (limit : Nat) (post : SavedPost) (st : LoopSt) :
    StepRes × LoopSt :=
  let s := sanitizeTitle post.title
  if post.is_gallery then processGallery limit s 0 post.items st
  else if strContains post.url "i.redd.it" || strContains post.url "i.imgur.com" then
    processDirect limit s post.url st
  else if strContains post.url "redgifs.com" then processRedgifs limit s post.url st
  else (.next, st)

/-- How a run of `main` ends: the feed ran out, the circuit breaker
returned, or an exception escaped the loop. -/
inductive RunExit where
  | finished
  | breaker
  | exn
deriving DecidableEq, Repr

/-- The whole post loop of `main` over a finite prefix of the feed. -/
def runLoop (limit : Nat) (posts : List SavedPost) (st : LoopSt) :
    RunExit × LoopSt :=
  match posts with
  | [] => (.finished, st)
  | p :: rest =>
    let r := processPost limit p st
    match r.1 with
    | .next => runLoop limit rest r.2
    | .stopRun => (.breaker, r.2)
    | .exn => (.exn, r.2)

/-! ## Concrete fixtures used by counterexamples and witnesses -/

/-- A filesystem on which every file exists with size 1. -/
def fsAll : FS := fun _ => some 1

/-- The empty filesystem. -/
def fsEmpty : FS := fun _ => none

/-- Fresh state at the top of `main`: zero counters, no token, given
oracles. -/
def initSt (fs : FS) (auths : List (Option String)) (metas : List MetaResp)
    (dls : List DLEnv) : LoopSt :=
  ⟨fs, 0, 0, 0, none, auths, metas, dls, []⟩

/-- One gallery item with a png mime type. -/
def gItem : GalleryItem := ⟨"m", "image/png"⟩

/-- A gallery post with `n` png items. -/
def galleryPost (n : Nat) : SavedPost :=
  ⟨"t", "", true, List.replicate n gItem⟩

/-- A network oracle whose `GET` succeeds with a 7-byte body. -/
def envOK : DLEnv := ⟨.ok none, .ok 7⟩

/-- A network oracle whose `GET` fails at connection level. -/
def envConnErr : DLEnv := ⟨.ok none, .connError⟩

/-- A network oracle whose `GET` stream dies after 3 bytes. -/
def envPart : DLEnv := ⟨.ok none, .streamFail 3⟩

/-- A network oracle whose `HEAD` reports `content-length: 0` and whose
`GET` succeeds with 5 bytes. -/
def envZeroCL : DLEnv := ⟨.ok (some 0), .ok 5⟩

/-- A filesystem holding only an empty `f.mp4`. -/
def fsZero : FS := fun p => if p = "f.mp4" then some 0 else none

/-- A RedGifs post whose id parses to `abc`. -/
def rgPost : SavedPost := ⟨"t", "https://www.redgifs.com/watch/abc", false, []⟩

/-- State with five consecutive skips banked and a metadata oracle that
answers 500 (a transient error mapped to `None`). -/
def st5 : LoopSt := ⟨fsEmpty, 0, 5, 0, some "tok", [], [⟨500, none⟩], [], []⟩

/-- A direct-image post. -/
def imgPostA : SavedPost := ⟨"a", "https://i.redd.it/a.jpg", false, []⟩

/-- A second direct-image post. -/
def imgPostB : SavedPost := ⟨"b", "https://i.redd.it/b.png", false, []⟩

/-- State whose first download raises an `OSError` while writing and whose
second would succeed. -/
def stIO : LoopSt :=
  ⟨fsEmpty, 0, 0, 0, none, [], [], [⟨.ok none, .ioError 0⟩, ⟨.ok none, .ok 7⟩], []⟩

/-- A non-gallery post whose url contains both the `i.redd.it` and the
`redgifs.com` substrings. -/
def bothPost : SavedPost := ⟨"t", "https://redgifs.com/watch/i.redd.it", false, []⟩

/-- State with a cached token and a metadata oracle answering 410. -/
def st410 : LoopSt := ⟨fsEmpty, 0, 0, 0, some "tok", [], [⟨410, none⟩], [], []⟩

/-- The `(url, filename)` pairs the gallery branch fetches for a list of
items, starting at 0-based index `i`. -/
def galleryTargets (s : String) : Nat → List GalleryItem → List (String × String)
  | _, [] => []
  | i, it :: rest =>
    (galleryUrl it, galleryName s i it) :: galleryTargets s (i + 1) rest

/-! ## Helper lemmas about `download_file` -/

theorem download_file_exists_nocheck (fs : FS) (fn : String) (env : DLEnv)
    (sz : Nat) (h : fs fn = some sz) :
    download_file fs fn false env = ⟨.ok true, fs, 0, 0⟩ := by
  simp [download_file, h]

theorem download_file_verified_skip (fs : FS) (fn : String) (env : DLEnv)
    (sz : Nat) (cl : Option Nat) (h : fs fn = some sz) (hh : env.head = .ok cl)
    (h1 : 0 < cl.getD 0) (h2 : cl.getD 0 = sz) :
    download_file fs fn true env = ⟨.ok true, fs, 1, 0⟩ := by
  simp only [download_file, h, hh]
  rw [if_neg (by simp), if_pos ⟨h1, h2⟩]

theorem download_file_redownload (fs : FS) (fn : String) (env : DLEnv)
    (sz : Nat) (cl : Option Nat) (h : fs fn = some sz) (hh : env.head = .ok cl)
    (hne : ¬(0 < cl.getD 0 ∧ cl.getD 0 = sz)) :
    download_file fs fn true env =
      ⟨(doDownloadStep fs fn env.get).1, (doDownloadStep fs fn env.get).2, 1, 1⟩ := by
  simp only [download_file, h, hh]
  rw [if_neg (by simp), if_neg hne]

theorem download_file_probe_err (fs : FS) (fn : String) (env : DLEnv)
    (sz : Nat) (h : fs fn = some sz) (hh : env.head = .err) :
    download_file fs fn true env = ⟨.ok false, fs, 1, 0⟩ := by
  simp only [download_file, h, hh]
  rw [if_neg (by simp)]

theorem download_file_absent (fs : FS) (fn : String) (env : DLEnv)
    (check_size : Bool) (h : fs fn = none) :
    download_file fs fn check_size env =
      ⟨(doDownloadStep fs fn env.get).1, (doDownloadStep fs fn env.get).2, 0, 1⟩ := by
  simp [download_file, h]

theorem download_file_no_raise (fs : FS) (fn : String) (env : DLEnv)
    (check_size : Bool) (h : env.get.raises = false) :
    ∃ b, (download_file fs fn check_size env).result = .ok b := by
  have hstep : ∃ b, (doDownloadStep fs fn env.get).1 = .ok b := by
    rcases hg : env.get with sz | _ | _ | w | w
    · exact ⟨false, by simp [doDownloadStep]⟩
    · exact ⟨false, by simp [doDownloadStep]⟩
    · exact ⟨false, by simp [doDownloadStep]⟩
    · exact ⟨false, by simp [doDownloadStep]⟩
    · rw [hg] at h; simp [GetOutcome.raises] at h
  rcases hfs : fs fn with _ | sz
  · rcases hstep with ⟨b, hb⟩
    exact ⟨b, by rw [download_file_absent fs fn env check_size hfs]; exact hb⟩
  · cases check_size with
    | false => exact ⟨true, by rw [download_file_exists_nocheck fs fn env sz hfs]⟩
    | true =>
      rcases hh : env.head with cl | _
      · by_cases hc : 0 < cl.getD 0 ∧ cl.getD 0 = sz
        · exact ⟨true, by rw [download_file_verified_skip fs fn env sz cl hfs hh hc.1 hc.2]⟩
        · rcases hstep with ⟨b, hb⟩
          exact ⟨b, by rw [download_file_redownload fs fn env sz cl hfs hh hc]; exact hb⟩
      · exact ⟨false, by rw [download_file_probe_err fs fn env sz hfs hh]⟩

/-! ## C4: skip rules of the fetcher -/

/-- C4 counterexample: with a local `f.mp4` of 0 bytes and a remote
`content-length` of 0, the remote length equals the local size, yet
`download_file` does not skip: it issues the `GET` and overwrites the file
(the code demands `remote_size > 0`), refuting the claim's "returns
Skipped ... exactly when the remote content length equals the local
file's byte size". -/
theorem c4_counterexample :
    fsZero "f.mp4" = some 0 ∧
    (download_file fsZero "f.mp4" true envZeroCL).result = .ok false ∧
    (download_file fsZero "f.mp4" true envZeroCL).getCalls = 1 ∧
    (download_file fsZero "f.mp4" true envZeroCL).fs "f.mp4" = some 5 :=
  ⟨rfl, rfl, rfl, rfl⟩

/-- C4 (amended): the cheap path returns Skipped with no network call when
the destination exists and verification is off; the verified path issues
one `HEAD` and returns Skipped without writing exactly when the remote
content length is positive and equals the local byte size; on a zero,
unreadable, or mismatching remote length it re-downloads and overwrites;
a failed size probe returns Failed without downloading. -/
theorem c4_fetch_skip_rules :
    (∀ (fs : FS) (fn : String) (env : DLEnv) (sz : Nat), fs fn = some sz →
      download_file fs fn false env = ⟨.ok true, fs, 0, 0⟩) ∧
    (∀ (fs : FS) (fn : String) (env : DLEnv) (sz : Nat) (cl : Option Nat),
      fs fn = some sz → env.head = .ok cl → 0 < cl.getD 0 → cl.getD 0 = sz →
      download_file fs fn true env = ⟨.ok true, fs, 1, 0⟩) ∧
    (∀ (fs : FS) (fn : String) (env : DLEnv) (sz n : Nat) (cl : Option Nat),
      fs fn = some sz → env.head = .ok cl → ¬(0 < cl.getD 0 ∧ cl.getD 0 = sz) →
      env.get = .ok n →
      (download_file fs fn true env).result = .ok false ∧
      (download_file fs fn true env).getCalls = 1 ∧
      (download_file fs fn true env).fs fn = some n) ∧
    (∀ (fs : FS) (fn : String) (env : DLEnv) (sz : Nat),
      fs fn = some sz → env.head = .err →
      download_file fs fn true env = ⟨.ok false, fs, 1, 0⟩) := by
  refine ⟨download_file_exists_nocheck, download_file_verified_skip, ?_,
    download_file_probe_err⟩
  intro fs fn env sz n cl h hh hne hg
  rw [download_file_redownload fs fn env sz cl h hh hne]
  simp [doDownloadStep, hg, FS.write]

/-- C4 witness: the verified-skip branch at a concrete matching size. -/
theorem c4_witness :
    download_file fsAll "x" true ⟨.ok (some 1), .ok 9⟩ = ⟨.ok true, fsAll, 1, 0⟩ :=
  c4_fetch_skip_rules.2.1 fsAll "x" ⟨.ok (some 1), .ok 9⟩ 1 (some 1) rfl rfl
    (by decide) rfl

/-! ## C5: the result of a successful download -/

/-- C5 counterexample: a download that completes successfully (2xx, all 7
bytes written) returns `.ok false` — the very value returned when the
download fails at connection level — so the caller cannot tell a
successful download from a failed one, refuting "a value distinct from
both Skipped and Failed". -/
theorem c5_counterexample :
    (download_file fsEmpty "f" false envOK).result = .ok false ∧
    (download_file fsEmpty "f" false envOK).fs "f" = some 7 ∧
    (download_file fsEmpty "f" false envConnErr).result = .ok false ∧
    (download_file fsEmpty "f" false envOK).result
      = (download_file fsEmpty "f" false envConnErr).result :=
  ⟨rfl, rfl, rfl, rfl⟩

/-- C5 (amended): a successfully completed download writes the body and
returns `.ok false`, which is distinct from the Skipped value `.ok true`
but identical to the value returned on a failed download; the caller can
distinguish skipped from non-skipped units only. -/
theorem c5_download_result (fs : FS) (fn : String) (env efail : DLEnv) (n : Nat)
    (h : fs fn = none) (hg : env.get = .ok n) (hf : efail.get = .connError) :
    (download_file fs fn false env).result = .ok false ∧
    (download_file fs fn false env).fs fn = some n ∧
    (download_file fs fn false efail).result = .ok false ∧
    (download_file fs fn false env).result ≠ .ok true := by
  rw [download_file_absent fs fn env false h, download_file_absent fs fn efail false h]
  simp [doDownloadStep, hg, hf, FS.write]

/-- C5 witness at a concrete success/failure pair. -/
theorem c5_witness :
    (download_file fsEmpty "f" false envOK).result = .ok false ∧
    (download_file fsEmpty "f" false envOK).fs "f" = some 7 ∧
    (download_file fsEmpty "f" false envConnErr).result = .ok false ∧
    (download_file fsEmpty "f" false envOK).result ≠ .ok true :=
  c5_download_result fsEmpty "f" envOK envConnErr 7 rfl rfl rfl

/-! ## C9: partial files across runs -/

/-- C9 counterexample: a stream that dies after 3 bytes leaves a 3-byte
`g.jpg` on disk; the next run's fetch of the same target without size
verification (the default for images and galleries) sees the file exists
and returns Skipped with no `GET` — it is not retried, refuting "the
existence/size check for that same target causes it to be retried". -/
theorem c9_counterexample :
    (download_file fsEmpty "g.jpg" false envPart).result = .ok false ∧
    (download_file fsEmpty "g.jpg" false envPart).fs "g.jpg" = some 3 ∧
    (download_file (download_file fsEmpty "g.jpg" false envPart).fs
      "g.jpg" false envOK).result = .ok true ∧
    (download_file (download_file fsEmpty "g.jpg" false envPart).fs
      "g.jpg" false envOK).getCalls = 0 :=
  ⟨rfl, rfl, rfl, rfl⟩

/-- C9 (amended): a failed stream leaves the partial bytes on disk and
returns the non-skip value; on the next run a size-verified fetch of that
target detects the length mismatch and re-downloads, overwriting the file,
while a fetch without size verification sees the file exists and returns
Skipped without retrying. -/
theorem c9_partial_files :
    (∀ (fs : FS) (fn : String) (env : DLEnv) (w : Nat), fs fn = none →
      env.get = .streamFail w →
      (download_file fs fn false env).result = .ok false ∧
      (download_file fs fn false env).fs fn = some w) ∧
    (∀ (fs : FS) (fn : String) (env : DLEnv) (w n : Nat) (cl : Option Nat),
      fs fn = some w → env.head = .ok cl → ¬(0 < cl.getD 0 ∧ cl.getD 0 = w) →
      env.get = .ok n →
      (download_file fs fn true env).getCalls = 1 ∧
      (download_file fs fn true env).fs fn = some n) ∧
    (∀ (fs : FS) (fn : String) (env : DLEnv) (w : Nat), fs fn = some w →
      download_file fs fn false env = ⟨.ok true, fs, 0, 0⟩) := by
  refine ⟨?_, ?_, download_file_exists_nocheck⟩
  · intro fs fn env w h hg
    rw [download_file_absent fs fn env false h]
    simp [doDownloadStep, hg, FS.write]
  · intro fs fn env w n cl h hh hne hg
    rw [download_file_redownload fs fn env w cl h hh hne]
    simp [doDownloadStep, hg, FS.write]

/-- C9 witness: partial write then size-verified retry at concrete sizes. -/
theorem c9_witness :
    ((download_file fsEmpty "g" false envPart).result = .ok false ∧
      (download_file fsEmpty "g" false envPart).fs "g" = some 3) ∧
    ((download_file fsZero "f.mp4" true ⟨.ok (some 9), .ok 9⟩).getCalls = 1 ∧
      (download_file fsZero "f.mp4" true ⟨.ok (some 9), .ok 9⟩).fs "f.mp4" = some 9) :=
  ⟨c9_partial_files.1 fsEmpty "g" envPart 3 rfl rfl,
    c9_partial_files.2.1 fsZero "f.mp4" ⟨.ok (some 9), .ok 9⟩ 0 9 (some 9) rfl rfl
      (by decide) rfl⟩

/-! ## C2: token refresh on 401 -/

/-- C2: when the cached token `t` is truthy and the first metadata request
answers 401, `get_media_info` re-authenticates exactly once (obtaining
`t2`), retries the metadata request exactly once with the new token, and
consumes no further responses; if the retried request also answers 401 the
result is `None` (a transient error) with no further authentication and no
further retry. -/
theorem c2_token_refresh (t t2 : String) (b1 : Option (Option String))
    (r2 : MetaResp) (auths : List (Option String)) (metas : List MetaResp)
    (ht : tokTruthy (some t) = true) (ht2 : tokTruthy (some t2) = true) :
    (getMediaInfo (some t) (some t2 :: auths) (⟨401, b1⟩ :: r2 :: metas)).trace.authCalls = 1 ∧
    (getMediaInfo (some t) (some t2 :: auths) (⟨401, b1⟩ :: r2 :: metas)).trace.metaTokens = [t, t2] ∧
    (getMediaInfo (some t) (some t2 :: auths) (⟨401, b1⟩ :: r2 :: metas)).token = some t2 ∧
    (getMediaInfo (some t) (some t2 :: auths) (⟨401, b1⟩ :: r2 :: metas)).metas = metas ∧
    (r2.status = 401 →
      (getMediaInfo (some t) (some t2 :: auths) (⟨401, b1⟩ :: r2 :: metas)).result = .noInfo) := by
  have key : getMediaInfo (some t) (some t2 :: auths) (⟨401, b1⟩ :: r2 :: metas)
      = ⟨raiseForStatus r2, some t2, auths, metas, ⟨1, [t, t2]⟩⟩ := by
    simp [getMediaInfo, ht, getMediaInfoAuthed, takeMeta, authenticate, ht2]
  rw [key]
  refine ⟨rfl, rfl, rfl, rfl, fun h401 => ?_⟩
  simp [raiseForStatus, h401]

/-- C2 witness: two concrete 401 responses around one successful refresh. -/
theorem c2_witness :
    (getMediaInfo (some "a") [some "b"] [⟨401, none⟩, ⟨401, none⟩]).trace.authCalls = 1 ∧
    (getMediaInfo (some "a") [some "b"] [⟨401, none⟩, ⟨401, none⟩]).trace.metaTokens = ["a", "b"] ∧
    (getMediaInfo (some "a") [some "b"] [⟨401, none⟩, ⟨401, none⟩]).result = .noInfo := by
  have h := c2_token_refresh "a" "b" none ⟨401, none⟩ [] [] (by decide) (by decide)
  exact ⟨h.1, h.2.1, h.2.2.2.2 rfl⟩

/-! ## C3: 410 means gone upstream -/

/-- C3: a metadata request answered 410 makes `get_media_info` re-raise
the `HTTPError` after exactly one metadata request — no retry, no extra
authentication — and the RedGifs branch of `main` catches it, increments
the upstream-deleted counter by exactly one, and attempts no fetch (the
fetch log and the download oracle are untouched). -/
theorem c3_upstream_gone :
    (∀ (t : String) (b : Option (Option String)) (auths : List (Option String))
      (metas : List MetaResp), tokTruthy (some t) = true →
      (getMediaInfo (some t) auths (⟨410, b⟩ :: metas)).result = .raise410 ∧
      (getMediaInfo (some t) auths (⟨410, b⟩ :: metas)).trace.metaTokens = [t] ∧
      (getMediaInfo (some t) auths (⟨410, b⟩ :: metas)).trace.authCalls = 0 ∧
      (getMediaInfo (some t) auths (⟨410, b⟩ :: metas)).metas = metas) ∧
    (∀ (limit : Nat) (s url : String) (st : LoopSt) (vid : String),
      rgSearch url.data = some vid →
      (getMediaInfo st.token st.auths st.metas).result = .raise410 →
      (processRedgifs limit s url st).1 = .next ∧
      (processRedgifs limit s url st).2.deleted = st.deleted + 1 ∧
      (processRedgifs limit s url st).2.fetchLog = st.fetchLog ∧
      (processRedgifs limit s url st).2.dls = st.dls) := by
  constructor
  · intro t b auths metas ht
    have key : getMediaInfo (some t) auths (⟨410, b⟩ :: metas)
        = ⟨raiseForStatus ⟨410, b⟩, some t, auths, metas, ⟨0, [t]⟩⟩ := by
      simp [getMediaInfo, ht, getMediaInfoAuthed, takeMeta]
    rw [key]
    exact ⟨by simp [raiseForStatus], rfl, rfl, rfl⟩
  · intro limit s url st vid hsearch hres
    simp only [processRedgifs]
    rw [hsearch, hres]
    simp [processRedgifsWith]

/-- C3 witness: a concrete 410 response from state `st410`. -/
theorem c3_witness :
    ((getMediaInfo (some "tok") [] [⟨410, none⟩]).result = .raise410 ∧
      (getMediaInfo (some "tok") [] [⟨410, none⟩]).trace.metaTokens = ["tok"]) ∧
    ((processRedgifs 0 "t" rgPost.url st410).1 = .next ∧
      (processRedgifs 0 "t" rgPost.url st410).2.deleted = 1 ∧
      (processRedgifs 0 "t" rgPost.url st410).2.fetchLog = []) := by
  have h1 := c3_upstream_gone.1 "tok" none [] [] (by decide)
  have h2 := c3_upstream_gone.2 0 "t" rgPost.url st410 "abc" (by decide) (by decide)
  exact ⟨⟨h1.1, h1.2.1⟩, ⟨h2.1, h2.2.1, h2.2.2.1⟩⟩

/-! ## C10: classification by substring containment -/

/-- C10 counterexample: the url of `bothPost` contains `redgifs.com`, yet
the post is routed to the direct-image branch, not the external-video one,
because the `i.redd.it` substring test runs first; likewise a gallery post
whose url contains `i.redd.it` is routed to the gallery branch.  This
refutes "any URL containing 'redgifs.com' anywhere is routed to the
external-video branch" (and the analogous unconditional direct-image
clause). -/
theorem c10_counterexample :
    strContains bothPost.url "redgifs.com" = true ∧
    classify bothPost = .directImage ∧
    classify bothPost ≠ .externalVideo ∧
    classify ⟨"t", "https://i.redd.it/a.jpg", true, []⟩ = .gallery ∧
    classify ⟨"t", "https://i.redd.it/a.jpg", true, []⟩ ≠ .directImage := by
  decide

/-- C10 (amended): classification is decided by substring containment over
the full URL text rather than by host parsing, but in the source's
priority order: the gallery flag wins outright; a non-gallery URL
containing `i.redd.it` or `i.imgur.com` anywhere goes to the direct-image
branch; a non-gallery URL without those substrings but containing
`redgifs.com` anywhere goes to the external-video branch — even when the
substring sits in the path or query rather than the hostname. -/
theorem c10_substring_classification :
    (∀ post : SavedPost, post.is_gallery = true → classify post = .gallery) ∧
    (∀ post : SavedPost, post.is_gallery = false →
      (strContains post.url "i.redd.it" || strContains post.url "i.imgur.com") = true →
      classify post = .directImage) ∧
    (∀ post : SavedPost, post.is_gallery = false →
      (strContains post.url "i.redd.it" || strContains post.url "i.imgur.com") = false →
      strContains post.url "redgifs.com" = true →
      classify post = .externalVideo) ∧
    classify ⟨"t", "https://example.com/page?img=i.redd.it", false, []⟩ = .directImage ∧
    classify ⟨"t", "https://example.com/page?v=redgifs.com", false, []⟩ = .externalVideo := by
  refine ⟨?_, ?_, ?_, by decide, by decide⟩
  · intro post hg; simp [classify, hg]
  · intro post hg hsub; simp [classify, hg, hsub]
  · intro post hg hsub hrg; simp [classify, hg, hsub, hrg]

/-- C10 witness: concrete posts through each amended clause. -/
theorem c10_witness :
    classify imgPostA = .directImage ∧ classify rgPost = .externalVideo :=
  ⟨c10_substring_classification.2.1 imgPostA rfl (by decide),
    c10_substring_classification.2.2.1 rgPost rfl (by decide) (by decide)⟩

/-! ## C7: the consecutive-skip counter -/

/-- C7 counterexample: a RedGifs unit whose metadata call ends in a
transient error (a 500 mapped to `None`) leaves the consecutive-skip
counter at its old value 5 instead of resetting it to 0, refuting the
claim that NotFound/TransientError resolutions "are reported as Failed"
and reset the counter. -/
theorem c7_counterexample :
    st5.consecutive = 5 ∧
    (processPost 3 rgPost st5).1 = .next ∧
    (processPost 3 rgPost st5).2.consecutive = 5 := by
  decide

/-- C7 (amended): the counter is driven only by actual `download_file`
calls — incremented (with the skipped total) on a `True` return, reset to
0 on a `False` return — while external-video units whose resolution ends
in NotFound (unparseable id) or TransientError (`None` metadata, falsy
body) leave every counter untouched and just continue. -/
theorem c7_skip_counter :
    (∀ (limit : Nat) (st2 : LoopSt),
      (applyResult limit st2 (.ok true)).2.consecutive = st2.consecutive + 1 ∧
      (applyResult limit st2 (.ok true)).2.skipped = st2.skipped + 1) ∧
    (∀ (limit : Nat) (st2 : LoopSt),
      (applyResult limit st2 (.ok false)).2.consecutive = 0) ∧
    (∀ (limit : Nat) (s : String) (st2 : LoopSt),
      processRedgifsWith limit s st2 .noInfo = (.next, st2)) ∧
    (∀ (limit : Nat) (s : String) (st2 : LoopSt),
      processRedgifsWith limit s st2 (.info none) = (.next, st2)) ∧
    (∀ (limit : Nat) (s url : String) (st : LoopSt), rgSearch url.data = none →
      processRedgifs limit s url st = (.next, st)) := by
  refine ⟨?_, ?_, fun _ _ _ => rfl, fun _ _ _ => rfl, ?_⟩
  · intro limit st2
    constructor <;> (simp only [applyResult]; split <;> rfl)
  · intro limit st2
    simp only [applyResult]; split <;> rfl
  · intro limit s url st h
    simp only [processRedgifs]
    rw [h]

/-- C7 witness: a skip increments from 5 to 6; an unparseable RedGifs url
leaves the state alone. -/
theorem c7_witness :
    (applyResult 0 st5 (.ok true)).2.consecutive = 6 ∧
    processRedgifs 0 "t" "https://redgifs.com" st5 = (.next, st5) :=
  ⟨(c7_skip_counter.1 0 st5).1,
    c7_skip_counter.2.2.2.2 0 "t" "https://redgifs.com" st5 (by decide)⟩

/-! ## C6: the per-post exception boundary -/

/-- C6 counterexample: an `OSError` while writing the first direct-image
post is not caught anywhere inside the loop (only the RedGifs branch has a
handler, and `download_file` catches only `RequestException`), so the run
aborts with an exception after one fetch attempt and the second post is
never processed — refuting "no unit-level exception propagates out of the
session loop's per-post boundary". -/
theorem c6_counterexample :
    (runLoop 0 [imgPostA, imgPostB] stIO).1 = .exn ∧
    (runLoop 0 [imgPostA, imgPostB] stIO).2.fetchLog.length = 1 := by
  decide

/-- C6 (amended): only the RedGifs branch catches per-unit exceptions — a
download raising there is logged and the loop continues — while an
exception during a gallery or direct-image unit (e.g. a local-I/O failure
while writing the destination) propagates out of the post loop and ends
the whole run at that post, leaving the remaining feed unprocessed. -/
theorem c6_exception_boundary :
    (∀ (limit : Nat) (s u : String) (st2 : LoopSt),
      (handleDownload limit st2 u (s ++ ".mp4") true).1 = .exn →
      (processRedgifsWith limit s st2 (.info (some (some u)))).1 = .next) ∧
    (∀ (limit : Nat) (p : SavedPost) (rest : List SavedPost) (st : LoopSt),
      (processPost limit p st).1 = .exn →
      runLoop limit (p :: rest) st = (.exn, (processPost limit p st).2)) ∧
    (∀ (limit : Nat) (s url : String) (st : LoopSt) (w : Nat),
      st.fs (s ++ "." ++ splitLast '.' url) = none →
      imageExts.contains (splitLast '.' url) = true →
      ((takeDL st.dls).1).get = .ioError w →
      (processDirect limit s url st).1 = .exn) := by
  refine ⟨?_, ?_, ?_⟩
  · intro limit s u st2 hexn
    simp only [processRedgifsWith]
    rw [hexn]
  · intro limit p rest st hexn
    simp only [runLoop]
    rw [hexn]
  · intro limit s url st w hfs hext hio
    simp only [processDirect, hext, if_true]
    simp only [handleDownload,
      download_file_absent st.fs (s ++ "." ++ splitLast '.' url) ((takeDL st.dls).1) _ hfs,
      hio, doDownloadStep, applyResult]

/-- C6 witness: the amended clauses at the concrete `stIO` state. -/
theorem c6_witness :
    (processRedgifsWith 0 "a" stIO (.info (some (some "u")))).1 = .next ∧
    runLoop 0 [imgPostA] stIO = (.exn, (processPost 0 imgPostA stIO).2) ∧
    (processDirect 0 "a" imgPostA.url stIO).1 = .exn :=
  ⟨c6_exception_boundary.1 0 "a" "u" stIO (by decide),
    c6_exception_boundary.2.1 0 imgPostA [] stIO (by decide),
    c6_exception_boundary.2.2 0 "a" imgPostA.url stIO 0 rfl (by decide) rfl⟩

/-! ## Helper lemmas about the loop with the breaker disabled -/

theorem takeDL_mem (l : List DLEnv) (e : DLEnv) (h : e ∈ (takeDL l).2) : e ∈ l := by
  cases l with
  | nil => simp [takeDL] at h
  | cons x xs => exact List.mem_cons_of_mem x h

theorem takeDL_head_noraise (l : List DLEnv)
    (h : ∀ e ∈ l, e.get.raises = false) : ((takeDL l).1).get.raises = false := by
  cases l with
  | nil => rfl
  | cons x xs => exact h x (List.mem_cons_self x xs)

theorem handleDownload_zero (st : LoopSt) (url fn : String) (cs : Bool)
    (h : ((takeDL st.dls).1).get.raises = false) :
    (handleDownload 0 st url fn cs).1 = .next ∧
    (handleDownload 0 st url fn cs).2.fetchLog = st.fetchLog ++ [(url, fn)] ∧
    (handleDownload 0 st url fn cs).2.dls = (takeDL st.dls).2 := by
  obtain ⟨b, hb⟩ := download_file_no_raise st.fs fn ((takeDL st.dls).1) cs h
  simp only [handleDownload, applyResult]
  rw [hb]
  cases b <;> simp [applyResult]

theorem processGallery_zero_log (s : String) :
    ∀ (items : List GalleryItem) (i : Nat) (st : LoopSt),
    (∀ e ∈ st.dls, e.get.raises = false) →
    (processGallery 0 s i items st).1 = .next ∧
    (processGallery 0 s i items st).2.fetchLog
      = st.fetchLog ++ galleryTargets s i items := by
  intro items
  induction items with
  | nil => intro i st h; simp [processGallery, galleryTargets]
  | cons it rest ih =>
    intro i st h
    have hr := handleDownload_zero st (galleryUrl it) (galleryName s i it) false
      (takeDL_head_noraise st.dls h)
    have hmem : ∀ e ∈ (handleDownload 0 st (galleryUrl it) (galleryName s i it)
        false).2.dls, e.get.raises = false := by
      rw [hr.2.2]; intro e he; exact h e (takeDL_mem st.dls e he)
    have hrec := ih (i + 1) _ hmem
    simp only [processGallery]
    rw [hr.1]
    refine ⟨hrec.1, ?_⟩
    rw [hrec.2, hr.2.1]
    simp [galleryTargets, List.append_assoc]

/-! ## C8: gallery expansion -/

/-- C8 counterexample: with a consecutive-skip threshold of 1 and a
2-item gallery whose first item is already on disk, the breaker fires
mid-gallery and only 1 of the 2 items is ever fetched, refuting
"dispatch produces exactly N independent fetch attempts" as an
unconditional statement. -/
theorem c8_counterexample :
    (galleryPost 2).items.length = 2 ∧
    (runLoop 1 [galleryPost 2] (initSt fsAll [] [] [])).1 = .breaker ∧
    (runLoop 1 [galleryPost 2] (initSt fsAll [] [] [])).2.fetchLog.length = 1 := by
  decide

/-- C8 (amended): provided the circuit breaker is disabled and no item's
download raises an exception, a gallery post with N items produces exactly
N fetch attempts, one per item in order, with url
`https://i.redd.it/{media_id}.{media_type}` and destination filename the
sanitized title suffixed with `_` and the 1-based index before the
extension; a failed (non-raising) download of item k does not prevent
items k+1..N from being attempted. -/
theorem c8_gallery_expansion (post : SavedPost) (st : LoopSt)
    (hg : post.is_gallery = true)
    (hio : ∀ e ∈ st.dls, e.get.raises = false) :
    (processPost 0 post st).1 = .next ∧
    (processPost 0 post st).2.fetchLog
      = st.fetchLog ++ galleryTargets (sanitizeTitle post.title) 0 post.items := by
  simp only [processPost, hg, if_true]
  exact processGallery_zero_log (sanitizeTitle post.title) post.items 0 st hio

/-- C8 witness: a concrete 2-item gallery with mixed skip/failure
outcomes still logs both targets. -/
theorem c8_witness :
    (processPost 0 (galleryPost 2)
      (initSt fsEmpty [] [] [envOK, envConnErr])).1 = .next ∧
    (processPost 0 (galleryPost 2)
      (initSt fsEmpty [] [] [envOK, envConnErr])).2.fetchLog
      = [("https://i.redd.it/m.png", "t_1.png"), ("https://i.redd.it/m.png", "t_2.png")] := by
  have h := c8_gallery_expansion (galleryPost 2)
    (initSt fsEmpty [] [] [envOK, envConnErr]) rfl (by decide)
  exact ⟨h.1, by rw [h.2]; rfl⟩

/-! ## Helper lemmas for the circuit-breaker invariant: entering any unit
with the consecutive counter below a positive threshold, the run stops
(via `stopRun`/`breaker`) exactly upon hitting the threshold, and every
other exit leaves the counter strictly below it. -/

theorem applyResult_inv (limit : Nat) (st2 : LoopSt) (r : Except Unit Bool)
    (hl : 0 < limit) (hc : st2.consecutive < limit) :
    ((applyResult limit st2 r).1 = .stopRun →
      (applyResult limit st2 r).2.consecutive = limit) ∧
    ((applyResult limit st2 r).1 ≠ .stopRun →
      (applyResult limit st2 r).2.consecutive < limit) := by
  rcases r with u | b
  · exact ⟨fun h => (nomatch h), fun _ => hc⟩
  · cases b
    · simp only [applyResult]
      split
      · next hcond =>
        have h2 : limit ≤ 0 := hcond.2
        exact absurd h2 (by omega)
      · next hcond =>
        exact ⟨fun h => (nomatch h), fun _ => hl⟩
    · simp only [applyResult]
      split
      · next hcond =>
        have h2 : limit ≤ st2.consecutive + 1 := hcond.2
        refine ⟨fun _ => ?_, fun hne => absurd rfl hne⟩
        show st2.consecutive + 1 = limit
        omega
      · next hcond =>
        have h2 : ¬(0 < limit ∧ limit ≤ st2.consecutive + 1) := hcond
        refine ⟨fun h => (nomatch h), fun _ => ?_⟩
        show st2.consecutive + 1 < limit
        omega

theorem handleDownload_inv (limit : Nat) (st : LoopSt) (url fn : String)
    (cs : Bool) (hl : 0 < limit) (hc : st.consecutive < limit) :
    ((handleDownload limit st url fn cs).1 = .stopRun →
      (handleDownload limit st url fn cs).2.consecutive = limit) ∧
    ((handleDownload limit st url fn cs).1 ≠ .stopRun →
      (handleDownload limit st url fn cs).2.consecutive < limit) :=
  applyResult_inv limit _ _ hl hc

theorem processGallery_inv (limit : Nat) (s : String) (hl : 0 < limit) :
    ∀ (items : List GalleryItem) (i : Nat) (st : LoopSt),
    st.consecutive < limit →
    ((processGallery limit s i items st).1 = .stopRun →
      (processGallery limit s i items st).2.consecutive = limit) ∧
    ((processGallery limit s i items st).1 ≠ .stopRun →
      (processGallery limit s i items st).2.consecutive < limit) := by
  intro items
  induction items with
  | nil =>
    intro i st hc
    simp only [processGallery]
    exact ⟨fun h => (nomatch h), fun _ => hc⟩
  | cons it rest ih =>
    intro i st hc
    have hd := handleDownload_inv limit st (galleryUrl it) (galleryName s i it)
      false hl hc
    simp only [processGallery]
    rcases hres : (handleDownload limit st (galleryUrl it) (galleryName s i it)
        false).1 with _ | _ | _
    · simp only [hres]
      exact ih (i + 1) _ (hd.2 (by simp [hres]))
    · simp only [hres]
      exact ⟨fun _ => hd.1 hres, fun hne => absurd rfl hne⟩
    · simp only [hres]
      exact ⟨fun h => (nomatch h), fun _ => hd.2 (by simp [hres])⟩

theorem processDirect_inv (limit : Nat) (s url : String) (st : LoopSt)
    (hl : 0 < limit) (hc : st.consecutive < limit) :
    ((processDirect limit s url st).1 = .stopRun →
      (processDirect limit s url st).2.consecutive = limit) ∧
    ((processDirect limit s url st).1 ≠ .stopRun →
      (processDirect limit s url st).2.consecutive < limit) := by
  simp only [processDirect]
  split
  · exact handleDownload_inv limit st url _ false hl hc
  · exact ⟨fun h => (nomatch h), fun _ => hc⟩

theorem processRedgifsWith_inv (limit : Nat) (s : String) (st2 : LoopSt)
    (r : GMIResult) (hl : 0 < limit) (hc : st2.consecutive < limit) :
    ((processRedgifsWith limit s st2 r).1 = .stopRun →
      (processRedgifsWith limit s st2 r).2.consecutive = limit) ∧
    ((processRedgifsWith limit s st2 r).1 ≠ .stopRun →
      (processRedgifsWith limit s st2 r).2.consecutive < limit) := by
  match r with
  | .raise410 => exact ⟨fun h => (nomatch h), fun _ => hc⟩
  | .noInfo => exact ⟨fun h => (nomatch h), fun _ => hc⟩
  | .info none => exact ⟨fun h => (nomatch h), fun _ => hc⟩
  | .info (some none) => exact ⟨fun h => (nomatch h), fun _ => hc⟩
  | .info (some (some u)) =>
    have hd := handleDownload_inv limit st2 u (s ++ ".mp4") true hl hc
    simp only [processRedgifsWith]
    rcases hres : (handleDownload limit st2 u (s ++ ".mp4") true).1 with _ | _ | _
    · simp only [hres]
      exact ⟨fun h => (nomatch h), fun _ => hd.2 (by simp [hres])⟩
    · simp only [hres]
      exact ⟨fun _ => hd.1 hres, fun hne => absurd rfl hne⟩
    · simp only [hres]
      exact ⟨fun h => (nomatch h), fun _ => hd.2 (by simp [hres])⟩

theorem processRedgifs_inv (limit : Nat) (s url : String) (st : LoopSt)
    (hl : 0 < limit) (hc : st.consecutive < limit) :
    ((processRedgifs limit s url st).1 = .stopRun →
      (processRedgifs limit s url st).2.consecutive = limit) ∧
    ((processRedgifs limit s url st).1 ≠ .stopRun →
      (processRedgifs limit s url st).2.consecutive < limit) := by
  simp only [processRedgifs]
  rcases hres : rgSearch url.data with _ | v
  · simp only [hres]
    exact ⟨fun h => (nomatch h), fun _ => hc⟩
  · simp only [hres]
    exact processRedgifsWith_inv limit s _ _ hl hc

theorem processPost_inv (limit : Nat) (p : SavedPost) (st : LoopSt)
    (hl : 0 < limit) (hc : st.consecutive < limit) :
    ((processPost limit p st).1 = .stopRun →
      (processPost limit p st).2.consecutive = limit) ∧
    ((processPost limit p st).1 ≠ .stopRun →
      (processPost limit p st).2.consecutive < limit) := by
  simp only [processPost]
  split
  · exact processGallery_inv limit (sanitizeTitle p.title) hl p.items 0 st hc
  · split
    · exact processDirect_inv limit (sanitizeTitle p.title) p.url st hl hc
    · split
      · exact processRedgifs_inv limit (sanitizeTitle p.title) p.url st hl hc
      · exact ⟨fun h => (nomatch h), fun _ => hc⟩

theorem runLoop_inv (limit : Nat) (hl : 0 < limit) :
    ∀ (posts : List SavedPost) (st : LoopSt), st.consecutive < limit →
    ((runLoop limit posts st).1 = .breaker →
      (runLoop limit posts st).2.consecutive = limit) ∧
    ((runLoop limit posts st).1 ≠ .breaker →
      (runLoop limit posts st).2.consecutive < limit) := by
  intro posts
  induction posts with
  | nil =>
    intro st hc
    simp only [runLoop]
    exact ⟨fun h => (nomatch h), fun _ => hc⟩
  | cons p rest ih =>
    intro st hc
    have hp := processPost_inv limit p st hl hc
    simp only [runLoop]
    rcases hres : (processPost limit p st).1 with _ | _ | _
    · simp only [hres]
      exact ih _ (hp.2 (by simp [hres]))
    · simp only [hres]
      exact ⟨fun _ => hp.1 hres, fun hne => absurd rfl hne⟩
    · simp only [hres]
      exact ⟨fun h => (nomatch h), fun _ => hp.2 (by simp [hres])⟩

/-! ## Helper lemmas: an all-skip gallery trips the breaker exactly at the
threshold, and a zero threshold can never produce a breaker exit. -/

theorem handleDownload_skip (limit : Nat) (st : LoopSt) (url fn : String)
    (hfs : st.fs fn = some 1) :
    handleDownload limit st url fn false =
      applyResult limit
        { st with dls := (takeDL st.dls).2,
                  fetchLog := st.fetchLog ++ [(url, fn)] } (.ok true) := by
  simp only [handleDownload,
    download_file_exists_nocheck st.fs fn ((takeDL st.dls).1) 1 hfs]

theorem processGallery_allskip (T : Nat) (s : String) (hT : 0 < T) :
    ∀ (n i : Nat) (st : LoopSt), st.consecutive < T →
    T ≤ st.consecutive + n → (∀ p, st.fs p = some 1) →
    (processGallery T s i (List.replicate n gItem) st).1 = .stopRun ∧
    (processGallery T s i (List.replicate n gItem) st).2.fetchLog.length
      = st.fetchLog.length + (T - st.consecutive) := by
  intro n
  induction n with
  | zero =>
    intro i st hc hn hfs
    exact absurd hn (by omega)
  | succ m ih =>
    intro i st hc hn hfs
    rw [List.replicate_succ]
    simp only [processGallery]
    rw [handleDownload_skip T st (galleryUrl gItem) (galleryName s i gItem) (hfs _)]
    simp only [applyResult]
    by_cases hstop : T ≤ st.consecutive + 1
    · rw [if_pos (show 0 < T ∧ T ≤ _ from ⟨hT, hstop⟩)]
      refine ⟨rfl, ?_⟩
      show (st.fetchLog ++ [(galleryUrl gItem, galleryName s i gItem)]).length
        = st.fetchLog.length + (T - st.consecutive)
      rw [List.length_append]
      simp only [List.length_singleton]
      omega
    · rw [if_neg (fun hcc => hstop hcc.2)]
      have hrec := ih (i + 1)
        { st with dls := (takeDL st.dls).2,
                  fetchLog := st.fetchLog ++ [(galleryUrl gItem, galleryName s i gItem)],
                  skipped := st.skipped + 1,
                  consecutive := st.consecutive + 1 }
        (by show st.consecutive + 1 < T; omega)
        (by show T ≤ st.consecutive + 1 + m; omega)
        (fun p => hfs p)
      refine ⟨hrec.1, ?_⟩
      have h2 := hrec.2
      simp only [List.length_append, List.length_singleton] at h2
      rw [h2]
      show st.fetchLog.length + 1 + (T - (st.consecutive + 1))
        = st.fetchLog.length + (T - st.consecutive)
      omega

theorem applyResult_zero_nostop (st2 : LoopSt) (r : Except Unit Bool) :
    (applyResult 0 st2 r).1 ≠ .stopRun := by
  rcases r with u | b
  · exact fun h => nomatch h
  · cases b <;> simp [applyResult]

theorem handleDownload_zero_nostop (st : LoopSt) (url fn : String) (cs : Bool) :
    (handleDownload 0 st url fn cs).1 ≠ .stopRun :=
  applyResult_zero_nostop _ _

theorem processGallery_zero_nostop (s : String) :
    ∀ (items : List GalleryItem) (i : Nat) (st : LoopSt),
    (processGallery 0 s i items st).1 ≠ .stopRun := by
  intro items
  induction items with
  | nil => intro i st; exact fun h => nomatch h
  | cons it rest ih =>
    intro i st
    simp only [processGallery]
    rcases hres : (handleDownload 0 st (galleryUrl it) (galleryName s i it)
        false).1 with _ | _ | _
    · simp only [hres]; exact ih (i + 1) _
    · exact absurd hres (handleDownload_zero_nostop st _ _ false)
    · simp only [hres]; exact fun h => nomatch h

theorem processDirect_zero_nostop (s url : String) (st : LoopSt) :
    (processDirect 0 s url st).1 ≠ .stopRun := by
  simp only [processDirect]
  split
  · exact handleDownload_zero_nostop st url _ false
  · exact fun h => nomatch h

theorem processRedgifsWith_zero_nostop (s : String) (st2 : LoopSt)
    (r : GMIResult) : (processRedgifsWith 0 s st2 r).1 ≠ .stopRun := by
  match r with
  | .raise410 => exact fun h => nomatch h
  | .noInfo => exact fun h => nomatch h
  | .info none => exact fun h => nomatch h
  | .info (some none) => exact fun h => nomatch h
  | .info (some (some u)) =>
    simp only [processRedgifsWith]
    rcases hres : (handleDownload 0 st2 u (s ++ ".mp4") true).1 with _ | _ | _
    · simp only [hres]; exact fun h => nomatch h
    · exact absurd hres (handleDownload_zero_nostop st2 u _ true)
    · simp only [hres]; exact fun h => nomatch h

theorem processRedgifs_zero_nostop (s url : String) (st : LoopSt) :
    (processRedgifs 0 s url st).1 ≠ .stopRun := by
  simp only [processRedgifs]
  rcases hres : rgSearch url.data with _ | v
  · simp only [hres]; exact fun h => nomatch h
  · simp only [hres]; exact processRedgifsWith_zero_nostop s _ _

theorem processPost_zero_nostop (p : SavedPost) (st : LoopSt) :
    (processPost 0 p st).1 ≠ .stopRun := by
  simp only [processPost]
  split
  · exact processGallery_zero_nostop _ p.items 0 st
  · split
    · exact processDirect_zero_nostop _ p.url st
    · split
      · exact processRedgifs_zero_nostop _ p.url st
      · exact fun h => nomatch h

theorem runLoop_zero_nobreaker :
    ∀ (posts : List SavedPost) (st : LoopSt),
    (runLoop 0 posts st).1 ≠ .breaker := by
  intro posts
  induction posts with
  | nil => intro st; exact fun h => nomatch h
  | cons p rest ih =>
    intro st
    simp only [runLoop]
    rcases hres : (processPost 0 p st).1 with _ | _ | _
    · simp only [hres]; exact ih _
    · exact absurd hres (processPost_zero_nostop p st)
    · simp only [hres]; exact fun h => nomatch h

/-! ## C1: the consecutive-skip circuit breaker -/

/-- C1: with threshold `limit > 0`, any run entered with the counter below
the threshold exits through the breaker exactly when the counter reaches
the threshold and otherwise keeps it strictly below — the run never
continues past the threshold; an all-skipping gallery of `n ≥ T` items
trips the breaker mid-gallery after exactly `T` fetch attempts; and with
threshold 0 the breaker is disabled: no run ever exits through it. -/
theorem c1_circuit_breaker :
    (∀ (limit : Nat) (posts : List SavedPost) (st : LoopSt),
      0 < limit → st.consecutive < limit →
      ((runLoop limit posts st).1 = .breaker →
        (runLoop limit posts st).2.consecutive = limit) ∧
      ((runLoop limit posts st).1 ≠ .breaker →
        (runLoop limit posts st).2.consecutive < limit)) ∧
    (∀ T n : Nat, 0 < T → T ≤ n →
      (runLoop T [galleryPost n] (initSt fsAll [] [] [])).1 = .breaker ∧
      (runLoop T [galleryPost n] (initSt fsAll [] [] [])).2.fetchLog.length = T) ∧
    (∀ (posts : List SavedPost) (st : LoopSt),
      (runLoop 0 posts st).1 ≠ .breaker) := by
  refine ⟨?_, ?_, runLoop_zero_nobreaker⟩
  · intro limit posts st hl hc
    exact runLoop_inv limit hl posts st hc
  · intro T n hT hn
    have hg := processGallery_allskip T (sanitizeTitle "t") hT n 0
      (initSt fsAll [] [] []) hT (by show T ≤ 0 + n; omega) (fun p => rfl)
    have hpost : processPost T (galleryPost n) (initSt fsAll [] [] [])
        = processGallery T (sanitizeTitle "t") 0 (List.replicate n gItem)
            (initSt fsAll [] [] []) := rfl
    have hrun : runLoop T [galleryPost n] (initSt fsAll [] [] [])
        = (.breaker, (processGallery T (sanitizeTitle "t") 0
            (List.replicate n gItem) (initSt fsAll [] [] [])).2) := by
      simp only [runLoop, hpost, hg.1]
    rw [hrun]
    refine ⟨rfl, ?_⟩
    have h2 := hg.2
    simpa [initSt] using h2

/-- C1 witness: threshold 2 against a 3-item all-skipping gallery trips
the breaker after exactly 2 attempts. -/
theorem c1_witness :
    (runLoop 2 [galleryPost 3] (initSt fsAll [] [] [])).1 = .breaker ∧
    (runLoop 2 [galleryPost 3] (initSt fsAll [] [] [])).2.fetchLog.length = 2 :=
  c1_circuit_breaker.2.1 2 3 (by decide) (by decide)

end RedditDownloader
